import Mathlib

/-!
Verification of the dynamic filter-query compiler and import/merge logic of
the bibliographic catalog backend (`backend/crud.py`, `backend/schemas.py`,
`backend/models.py`).

The Python code is shallowly embedded: pydantic models become structures,
the relational store becomes explicit lists of rows, SQLAlchemy predicate
objects become Lean functions `Row → Bool`, and Python exceptions caught by
the code (the `try/except` around type coercion) become `Option`-valued
coercions.  Library behaviour that the code relies on (Python truthiness,
`str.strip`, `str.split`, `str.lower`, `int(...)`, `str.replace` and the SQL
`replace`/`lower`/`ilike` operators, `unicodedata.normalize("NFKC", ...)`)
is modelled by executable Lean functions, restricted where noted to the
character alphabet exercised by the theorems.
-/

/-- Characters treated as whitespace by Python's `str.strip` and `str.split`
(the ASCII whitespace characters plus the non-breaking space U+00A0 and the
narrow no-break space U+202F, the two variants the source code singles out). -/
def isPyWs (c : Char) : Bool :=
  c == ' ' || c == '\t' || c == '\n' || c == '\r' || c == '\x0b' || c == '\x0c' ||
  c == ' ' || c == ' '

/-- Model of Python `str.strip()` on the character list of a string. -/
def pyStripL (l : List Char) : List Char :=
  ((l.dropWhile isPyWs).reverse.dropWhile isPyWs).reverse

/-- Model of Python `str.strip()`. -/
def pyStrip (s : String) : String :=
  String.mk (pyStripL s.data)

/-- Model of Python `str.lower` / SQL `LOWER` on one character: ASCII uppercase
letters are mapped to lowercase, everything else is unchanged (Python's full
Unicode case map agrees with this on the alphabet used in this development). -/
def pyLowerChar (c : Char) : Char :=
  if 65 ≤ c.toNat ∧ c.toNat ≤ 90 then Char.ofNat (c.toNat + 32) else c

/-- Model of Python `str.lower()` / SQL `LOWER`. -/
def pyLower (s : String) : String :=
  String.mk (s.data.map pyLowerChar)

/-- Bool-valued containment of `pat` as a contiguous sublist of a list. -/
def listInfixOf (pat : List Char) : List Char → Bool
  | [] => pat.isEmpty
  | c :: cs => pat.isPrefixOf (c :: cs) || listInfixOf pat cs

/-- Model of the SQL expression `col.ilike('%' ++ pat ++ '%')` for patterns
without SQL wildcard characters: case-insensitive substring containment. -/
def sqlIlike (hay pat : String) : Bool :=
  listInfixOf (pyLower pat).data (pyLower hay).data

/-- Decimal digit value of a character, if it is a digit. -/
def digitVal (c : Char) : Option Nat :=
  if 48 ≤ c.toNat ∧ c.toNat ≤ 57 then some (c.toNat - 48) else none

/-- Parse a nonempty all-digit character list as a natural number. -/
def parseNatDigits (l : List Char) : Option Nat :=
  if l.isEmpty then none
  else l.foldl (fun acc c =>
    match acc, digitVal c with
    | some a, some d => some (a * 10 + d)
    | _, _ => none) (some 0)

/-- Model of Python `int(s)` for strings: surrounding whitespace is ignored, an
optional sign is followed by decimal digits; anything else raises `ValueError`,
modelled as `none`. -/
def pyIntOfStr (s : String) : Option Int :=
  match (pyStrip s).data with
  | '+' :: rest => (parseNatDigits rest).map (fun n => (n : Int))
  | '-' :: rest => (parseNatDigits rest).map (fun n => -(n : Int))
  | t => (parseNatDigits t).map (fun n => (n : Int))

/-- A JSON-ish value as received by a `FilterCondition`
(`value: Union[str, int, List[str]]` in `schemas.py`; `none` models a Python
`None` reaching the function). -/
inductive Value where
  | vnone : Value
  | vstr : String → Value
  | vint : Int → Value
  | vlist : List String → Value
deriving Repr, DecidableEq

/-- Model of Python `int(value)` inside the `try` block of
`build_single_condition`: coercion failure (`ValueError`/`TypeError`) is
`none`. -/
def pyInt : Value → Option Int
  | .vint n => some n
  | .vstr s => pyIntOfStr s
  | .vlist _ => none
  | .vnone => none

/-- Model of Python `str(value)`. -/
def pyStr : Value → String
  | .vstr s => s
  | .vint n => toString n
  | .vlist l => "[" ++ String.intercalate ", " (l.map (fun s => "'" ++ s ++ "'")) ++ "]"
  | .vnone => "None"

/-- Python truthiness of a condition value (`bool(value)`). -/
def pyTruthy : Value → Bool
  | .vnone => false
  | .vstr s => !(s == "")
  | .vint n => !(n == 0)
  | .vlist l => !l.isEmpty

/-- Model of Python/SQL `replace` (all non-overlapping occurrences, scanning
left to right), driven by a fuel argument; each step consumes at least one
character, so fuel `l.length` computes the exact replacement. -/
def replaceAllFuel (pat rep : List Char) : Nat → List Char → List Char
  | _, [] => []
  | 0, l => l
  | fuel + 1, c :: cs =>
    if !pat.isEmpty && pat.isPrefixOf (c :: cs) then
      rep ++ replaceAllFuel pat rep fuel ((c :: cs).drop pat.length)
    else
      c :: replaceAllFuel pat rep fuel cs

/-- Model of Python/SQL `replace` on character lists. -/
def replaceAll (pat rep l : List Char) : List Char :=
  replaceAllFuel pat rep l.length l

/-- Model of Python `str.split()` (split on whitespace runs, dropping empty
pieces); `acc` holds the reversed current word. -/
def pySplitAux : List Char → List Char → List (List Char)
  | [], acc => if acc.isEmpty then [] else [acc.reverse]
  | c :: cs, acc =>
    if isPyWs c then
      if acc.isEmpty then pySplitAux cs []
      else acc.reverse :: pySplitAux cs []
    else
      pySplitAux cs (c :: acc)

/-- The words of Python `s.split()`. -/
def pySplitWords (l : List Char) : List (List Char) :=
  pySplitAux l []

/-- Model of `" ".join(words)` on character lists. -/
def joinSp : List (List Char) → List Char
  | [] => []
  | [w] => w
  | w :: ws => w ++ ' ' :: joinSp ws

/-- Model of `unicodedata.normalize("NFKC", ·)` on one character, restricted to
the alphabet used in this development: NFKC maps the non-breaking space U+00A0
and the narrow no-break space U+202F to an ASCII space and is the identity on
ASCII; other characters are left unchanged. -/
def nfkcChar (c : Char) : Char :=
  if c = ' ' ∨ c = ' ' then ' ' else c

/-- `normalize_text` (crud.py:527-533): NFKC-normalize, replace U+00A0 and
U+202F with spaces, collapse whitespace runs via `" ".join(s.split())`, then
`strip().lower()`.  Empty input short-circuits to `""`. -/
def normalize_text (s : String) : String :=
  if s == "" then ""
  else
    let l1 := s.data.map nfkcChar
    let l2 := replaceAll [' '] [' '] l1
    let l3 := replaceAll [' '] [' '] l2
    let j := joinSp (pySplitWords l3)
    String.mk ((pyStripL j).map pyLowerChar)

/-- The stored-side comparison-time normalization of `search_related_papers`
(crud.py:553-563): SQL `LOWER(REPLACE(REPLACE(REPLACE(title, nbsp, ' '),
nnbsp, ' '), '  ', ' '))` — note: one single-pass double-space collapse, no
trim, no split-based collapsing, no NFKC. -/
def db_title_norm (t : String) : String :=
  String.mk ((replaceAll [' ', ' '] [' ']
    (replaceAll [' '] [' ']
      (replaceAll [' '] [' '] t.data))).map pyLowerChar)

/-- A row of the `papers` table (`models.py`), restricted to the columns the
verified operations read or write. -/
structure Paper where
  id : Int
  title : String
  abstract : Option String
  publication_year : Int
  doi : Option String
  citation_count : Option Int
  venue_id : Option Int
  pdf_file_path : Option String
  file_size : Option Int
  url : Option String
  keywords : Option (List String)
deriving Repr, DecidableEq

/-- A row of the `authors` table (columns used by the query compiler). -/
structure AuthorRec where
  id : Int
  name : String
deriving Repr, DecidableEq

/-- A row of the `paper_authors` association table. -/
structure PaperAuthorRec where
  paper_id : Int
  author_id : Int
  author_order : Nat
deriving Repr, DecidableEq

/-- A row of the `tags` table (columns used by the query compiler). -/
structure TagRec where
  id : Int
  name : String
deriving Repr, DecidableEq

/-- A row of the `paper_tags` association table. -/
structure PaperTagRec where
  paper_id : Int
  tag_id : Int
deriving Repr, DecidableEq

/-- The relational store: the five tables the verified operations touch. -/
structure DB where
  papers : List Paper
  authors : List AuthorRec
  paper_authors : List PaperAuthorRec
  tags : List TagRec
  paper_tags : List PaperTagRec
deriving Repr, DecidableEq

/-- `FilterCondition` (schemas.py:115-119). -/
structure FilterCondition where
  id : String
  field : String
  operator : String
  value : Value
deriving Repr

/-- `FilterGroup` (schemas.py:121-125): an AND/OR node with direct conditions
and nested child groups. -/
inductive FilterGroup where
  | mk (operator : String) (conditions : List FilterCondition) (groups : List FilterGroup)
deriving Repr

/-- A row produced by the (optionally join-augmented) base query: the paper
columns plus, when the corresponding join is present, the joined author name
and joined tag name. -/
structure Row where
  paper : Paper
  author_name : Option String
  tag_name : Option String
deriving Repr

/-- The skip guard of `build_single_condition` (crud.py:316): a falsy value, or
a string that strips to empty, causes the condition to be skipped. -/
def skipValue (value : Value) : Bool :=
  !(pyTruthy value) ||
    (match value with
     | .vstr s => pyStrip s == ""
     | _ => false)

/-- `build_single_condition` (crud.py:309-377): one typed
(field, operator, value) triple becomes a predicate on joined rows, or `none`
("skip") when the value is empty/falsy, the field/operator pair is unknown, or
an `int(...)` coercion fails (the `except (ValueError, TypeError)` path). -/
def build_single_condition (c : FilterCondition) : Option (Row → Bool) :=
  let field := c.field
  let operator := c.operator
  let value := c.value
  if skipValue value then none
  else if field == "title_keyword" then
    if operator == "contains" then
      some (fun r => sqlIlike r.paper.title (pyStr value))
    else if operator == "equals" then
      some (fun r => r.paper.title == pyStr value)
    else none
  else if field == "abstract_keyword" then
    if operator == "contains" then
      some (fun r =>
        match r.paper.abstract with
        | some a => sqlIlike a (pyStr value)
        | none => false)
    else if operator == "equals" then
      some (fun r =>
        match r.paper.abstract with
        | some a => a == pyStr value
        | none => false)
    else none
  else if field == "author_name" then
    if operator == "contains" then
      some (fun r =>
        match r.author_name with
        | some a => sqlIlike a (pyStr value)
        | none => false)
    else if operator == "equals" then
      some (fun r =>
        match r.author_name with
        | some a => a == pyStr value
        | none => false)
    else none
  else if field == "year_from" then
    if operator == "greater_than" || operator == "greater_equal" then
      (pyInt value).map (fun n => fun r => decide (n ≤ r.paper.publication_year))
    else if operator == "equals" then
      (pyInt value).map (fun n => fun r => r.paper.publication_year == n)
    else none
  else if field == "year_to" then
    if operator == "less_than" || operator == "less_equal" then
      (pyInt value).map (fun n => fun r => decide (r.paper.publication_year ≤ n))
    else if operator == "equals" then
      (pyInt value).map (fun n => fun r => r.paper.publication_year == n)
    else none
  else if field == "min_citations" then
    if operator == "greater_than" || operator == "greater_equal" then
      (pyInt value).map (fun n => fun r =>
        match r.paper.citation_count with
        | some cc => decide (n ≤ cc)
        | none => false)
    else if operator == "equals" then
      (pyInt value).map (fun n => fun r =>
        match r.paper.citation_count with
        | some cc => cc == n
        | none => false)
    else none
  else if field == "max_citations" then
    if operator == "less_than" || operator == "less_equal" then
      (pyInt value).map (fun n => fun r =>
        match r.paper.citation_count with
        | some cc => decide (cc ≤ n)
        | none => false)
    else if operator == "equals" then
      (pyInt value).map (fun n => fun r =>
        match r.paper.citation_count with
        | some cc => cc == n
        | none => false)
    else none
  else if field == "venue_id" then
    if operator == "equals" then
      (pyInt value).map (fun n => fun r => r.paper.venue_id == some n)
    else none
  else if field == "tags" then
    if operator == "in" &&
        (match value with | .vlist _ => true | _ => false) then
      some (fun r =>
        match r.tag_name with
        | some t => (match value with | .vlist l => l.contains t | _ => false)
        | none => false)
    else if operator == "equals" then
      let tag_value := match value with | .vlist l => l.headD "" | v => pyStr v
      some (fun r => r.tag_name == some tag_value)
    else none
  else none

mutual
/-- `check_needs_author_join` (crud.py:264-272): true iff some condition of the
group, or of a nested group, has field `author_name`. -/
def check_needs_author_join : FilterGroup → Bool
  | .mk _ conditions groups =>
    conditions.any (fun c => c.field == "author_name") || anyNeedsAuthorJoin groups

/-- Recursion of `check_needs_author_join` over the subgroup list. -/
def anyNeedsAuthorJoin : List FilterGroup → Bool
  | [] => false
  | g :: gs => check_needs_author_join g || anyNeedsAuthorJoin gs
end

mutual
/-- `check_needs_tag_join` (crud.py:274-282): true iff some condition of the
group, or of a nested group, has field `tags`. -/
def check_needs_tag_join : FilterGroup → Bool
  | .mk _ conditions groups =>
    conditions.any (fun c => c.field == "tags") || anyNeedsTagJoin groups

/-- Recursion of `check_needs_tag_join` over the subgroup list. -/
def anyNeedsTagJoin : List FilterGroup → Bool
  | [] => false
  | g :: gs => check_needs_tag_join g || anyNeedsTagJoin gs
end

mutual
/-- `build_query_conditions` (crud.py:284-307): evaluate the direct conditions,
recursively compile the child groups, drop the skipped ones; an empty survivor
list compiles to `none`, otherwise the survivors are combined with `and_` when
the group operator is the string `AND` and with `or_` otherwise.  (The unused
`db` session parameter of the Python function is omitted.) -/
def build_query_conditions : FilterGroup → Option (Row → Bool)
  | .mk operator conditions groups =>
    let conds := conditions.filterMap build_single_condition ++ buildSubConds groups
    if conds.isEmpty then none
    else if operator == "AND" then some (fun r => conds.all (fun p => p r))
    else some (fun r => conds.any (fun p => p r))

/-- Recursion of `build_query_conditions` over the subgroup list, keeping the
subgroups that do not compile to `none`. -/
def buildSubConds : List FilterGroup → List (Row → Bool)
  | [] => []
  | g :: gs =>
    match build_query_conditions g with
    | none => buildSubConds gs
    | some p => p :: buildSubConds gs
end

mutual
/-- All conditions of a filter tree, at every nesting depth (specification-side
collection used to state properties of the traversals). -/
def allConds : FilterGroup → List FilterCondition
  | .mk _ conditions groups => conditions ++ allCondsList groups

/-- `allConds` over a list of groups. -/
def allCondsList : List FilterGroup → List FilterCondition
  | [] => []
  | g :: gs => allConds g ++ allCondsList gs
end

/-- The surviving predicates of one group level: evaluated direct conditions
followed by the compiled child groups (skips dropped from both). -/
def survivors (conditions : List FilterCondition) (groups : List FilterGroup) :
    List (Row → Bool) :=
  conditions.filterMap build_single_condition ++ groups.filterMap build_query_conditions

/-- Evaluate a compile result on a row; `none` means "no filter", which every
row passes. -/
def evalOpt (o : Option (Row → Bool)) (r : Row) : Bool :=
  match o with
  | none => true
  | some p => p r

/-- Names of the authors joined to a paper via `paper_authors` (the inner join
`join(PaperAuthor).join(Author)`). -/
def joinedAuthorNames (db : DB) (pid : Int) : List String :=
  (db.paper_authors.filter (fun pa => pa.paper_id == pid)).flatMap
    (fun pa => (db.authors.filter (fun a => a.id == pa.author_id)).map (fun a => a.name))

/-- Names of the tags joined to a paper via `paper_tags` (the inner join
`join(PaperTag).join(Tag)`). -/
def joinedTagNames (db : DB) (pid : Int) : List String :=
  (db.paper_tags.filter (fun pt => pt.paper_id == pid)).flatMap
    (fun pt => (db.tags.filter (fun t => t.id == pt.tag_id)).map (fun t => t.name))

/-- The row set of the base query after the conditionally added inner joins:
without a join the paper contributes a single row with no joined column; with a
join it contributes one row per joined relation row (inner-join fan-out, so a
paper with no joined rows disappears). -/
def queryRows (db : DB) (needsAuthor needsTag : Bool) : List Row :=
  db.papers.flatMap (fun p =>
    let ans : List (Option String) :=
      if needsAuthor then (joinedAuthorNames db p.id).map some else [none]
    let tns : List (Option String) :=
      if needsTag then (joinedTagNames db p.id).map some else [none]
    ans.flatMap (fun an => tns.map (fun tn => ⟨p, an, tn⟩)))

/-- `query.distinct()` over entity rows: de-duplication on the paper's primary
key, keeping first occurrences. -/
def distinctBy (seen : List Int) : List Paper → List Paper
  | [] => []
  | p :: ps =>
    if seen.contains p.id then distinctBy seen ps
    else p :: distinctBy (p.id :: seen) ps

/-- `search_papers_complex` (crud.py:237-262): add the joins the tree needs,
filter by the compiled tree unless it compiled to `none`, then
`distinct().offset(skip).limit(limit)`. -/
def search_papers_complex (db : DB) (root : FilterGroup) (skip lim : Nat) :
    List Paper :=
  let rows := queryRows db (check_needs_author_join root) (check_needs_tag_join root)
  let rows :=
    match build_query_conditions root with
    | none => rows
    | some p => rows.filter p
  ((distinctBy [] (rows.map (fun r => r.paper))).drop skip).take lim

/-- `PaperCreate` (schemas.py:59-61): the candidate draft of a record. -/
structure PaperCreate where
  title : String
  abstract : Option String
  publication_year : Int
  doi : Option String
  citation_count : Option Int
  venue_id : Option Int
  keywords : Option (List String)
  url : Option String
  author_ids : Option (List Int)
  tag_ids : Option (List Int)
deriving Repr, DecidableEq

/-- `PaperUpdate` (schemas.py:63-75).  A field that is `none` models both an
unset field and an explicit `None`: `update_paper` treats the two identically
(the setattr loop skips `None` values and the association branches test
`is not None`). -/
structure PaperUpdate where
  title : Option String
  abstract : Option String
  publication_year : Option Int
  doi : Option String
  citation_count : Option Int
  venue_id : Option Int
  keywords : Option (List String)
  pdf_file_path : Option String
  file_size : Option Int
  url : Option String
  author_ids : Option (List Int)
  tag_ids : Option (List Int)
deriving Repr, DecidableEq

/-- The scalar-field part of `update_paper` (crud.py:130-132): each basic field
whose update value is not `None` is overwritten; `None` values and the
association list fields are skipped. -/
def applyUpdate (p : Paper) (u : PaperUpdate) : Paper :=
  { p with
    title := u.title.getD p.title,
    abstract := (u.abstract.map some).getD p.abstract,
    publication_year := u.publication_year.getD p.publication_year,
    doi := (u.doi.map some).getD p.doi,
    citation_count := (u.citation_count.map some).getD p.citation_count,
    venue_id := (u.venue_id.map some).getD p.venue_id,
    keywords := (u.keywords.map some).getD p.keywords,
    pdf_file_path := (u.pdf_file_path.map some).getD p.pdf_file_path,
    file_size := (u.file_size.map some).getD p.file_size,
    url := (u.url.map some).getD p.url }

/-- The author-association insert loop of `create_paper`/`update_paper`
(crud.py:40-52, 139-151): enumerate the id list, skip an id whose
(paper, author) pair already exists (the pre-insert existence check, which
sees the rows added earlier in the same loop through the session's
autoflush), insert with `author_order = index + 1`. -/
def buildAuthorLinks (pid : Int) : List Int → Nat → List Int → List PaperAuthorRec
  | [], _, _ => []
  | aid :: rest, i, seen =>
    if seen.contains aid then buildAuthorLinks pid rest (i + 1) seen
    else ⟨pid, aid, i + 1⟩ :: buildAuthorLinks pid rest (i + 1) (aid :: seen)

/-- The tag-association insert loop of `create_paper`/`update_paper`
(crud.py:55-63, 158-166), with the same pre-insert existence check. -/
def buildTagLinks (pid : Int) : List Int → List Int → List PaperTagRec
  | [], _ => []
  | tid :: rest, seen =>
    if seen.contains tid then buildTagLinks pid rest seen
    else ⟨pid, tid⟩ :: buildTagLinks pid rest (tid :: seen)

/-- `update_paper` (crud.py:124-170): find the paper (else `None`), overwrite
the non-`None` scalar fields, and when an association id list is present
replace that association set wholesale (delete all rows of the paper, then
re-insert with the existence check).  Returns the refreshed paper and the new
store. -/
def update_paper (db : DB) (paper_id : Int) (paper : PaperUpdate) :
    Option Paper × DB :=
  match db.papers.find? (fun p => p.id == paper_id) with
  | none => (none, db)
  | some db_paper =>
    let updated := applyUpdate db_paper paper
    let papers := db.papers.map (fun q => if q.id == paper_id then applyUpdate q paper else q)
    let pas :=
      match paper.author_ids with
      | none => db.paper_authors
      | some ids =>
        db.paper_authors.filter (fun pa => !(pa.paper_id == paper_id)) ++
          buildAuthorLinks paper_id ids 0 []
    let pts :=
      match paper.tag_ids with
      | none => db.paper_tags
      | some ids =>
        db.paper_tags.filter (fun pt => !(pt.paper_id == paper_id)) ++
          buildTagLinks paper_id ids []
    (some updated, { db with papers := papers, paper_authors := pas, paper_tags := pts })

/-- `PaperUpdate(**new_data.model_dump())` in the `overwrite` branch of
`merge_paper` (crud.py:709): every field of the draft is carried over
(`pdf_file_path` and `file_size` do not exist on `PaperCreate` and stay
unset). -/
def paperCreateToUpdate (nd : PaperCreate) : PaperUpdate :=
  { title := some nd.title,
    abstract := nd.abstract,
    publication_year := some nd.publication_year,
    doi := nd.doi,
    citation_count := nd.citation_count,
    venue_id := nd.venue_id,
    keywords := nd.keywords,
    pdf_file_path := none,
    file_size := none,
    url := nd.url,
    author_ids := nd.author_ids,
    tag_ids := nd.tag_ids }

/-- The `merge_fields` update construction of `merge_paper` (crud.py:716-723):
only the named draft fields are carried into the `PaperUpdate`; the rest stay
unset (behaviorally `None`). -/
def selectFields (nd : PaperCreate) (fields : List String) : PaperUpdate :=
  { title := if fields.contains "title" then some nd.title else none,
    abstract := if fields.contains "abstract" then nd.abstract else none,
    publication_year := if fields.contains "publication_year" then some nd.publication_year else none,
    doi := if fields.contains "doi" then nd.doi else none,
    citation_count := if fields.contains "citation_count" then nd.citation_count else none,
    venue_id := if fields.contains "venue_id" then nd.venue_id else none,
    keywords := if fields.contains "keywords" then nd.keywords else none,
    pdf_file_path := none,
    file_size := none,
    url := if fields.contains "url" then nd.url else none,
    author_ids := if fields.contains "author_ids" then nd.author_ids else none,
    tag_ids := if fields.contains "tag_ids" then nd.tag_ids else none }

/-- `merge_paper` (crud.py:699-726): `keep_old` returns the existing record
unchanged, `overwrite` routes the whole draft through `update_paper`,
`merge_fields` routes only the named fields (an empty or absent list behaves
as `keep_old`), any other mode returns the existing record. -/
def merge_paper (db : DB) (paper_id : Int) (new_data : PaperCreate)
    (mode : String) (fields : Option (List String)) : Option Paper × DB :=
  match db.papers.find? (fun p => p.id == paper_id) with
  | none => (none, db)
  | some paper =>
    if mode == "keep_old" then (some paper, db)
    else if mode == "overwrite" then
      update_paper db paper_id (paperCreateToUpdate new_data)
    else if mode == "merge_fields" then
      match fields with
      | none => (some paper, db)
      | some fs =>
        if fs.isEmpty then (some paper, db)
        else update_paper db paper_id (selectFields new_data fs)
    else (some paper, db)

/-- First `n` characters of a string (Python `s[:n]`). -/
def strTake (s : String) (n : Nat) : String :=
  String.mk (s.data.take n)

/-- The stored-DOI match test of `search_related_papers` (crud.py:542):
`LOWER(Paper.doi) == doi_clean` (SQL `NULL` compares false). -/
def doiMatch (doi_clean : String) (p : Paper) : Bool :=
  match p.doi with
  | some d => pyLower d == doi_clean
  | none => false

/-- `search_related_papers` (crud.py:536-583): (0) when the candidate has a
truthy DOI, return the first stored record whose lowered DOI equals the
stripped lowered candidate DOI, as a one-element list; (1) otherwise match the
stored-side normalized title exactly against the normalized candidate title or
fuzzily against its first 20 characters, `distinct().limit(limit)`; fall back
to the first `limit` records when nothing matched. -/
def search_related_papers (db : DB) (paper_data : PaperCreate) (lim : Nat) :
    List Paper :=
  let doiHit : Option Paper :=
    match paper_data.doi with
    | some d =>
      if d == "" then none
      else db.papers.find? (doiMatch (pyLower (pyStrip d)))
    | none => none
  match doiHit with
  | some p => [p]
  | none =>
    let title_norm := normalize_text paper_data.title
    let results := (distinctBy []
      (db.papers.filter (fun p =>
        db_title_norm p.title == title_norm ||
        sqlIlike (db_title_norm p.title) (strTake title_norm 20)))).take lim
    if results.isEmpty then db.papers.take lim else results

/-- The Python exceptions relevant to `create_paper`. -/
inductive PyErr where
  | valueError : PyErr
  | attributeError : PyErr
deriving Repr, DecidableEq

/-- `check_doi_exists` (crud.py:12-16). -/
def check_doi_exists (db : DB) (doi : String) : Bool :=
  if doi == "" then false
  else db.papers.any (fun p => p.doi == some doi)

/-- `create_paper` (crud.py:18-67).  After the DOI-uniqueness check, the
`Paper(...)` constructor call reads `paper.document_type` (crud.py:33), but
`PaperCreate` (schemas.py:59-61, inheriting `PaperBase`) declares no
`document_type` field and the `Paper` model (models.py:30-52) has no such
column; pydantic raises `AttributeError` on access to an undeclared field, so
every call that passes the DOI check raises before inserting anything, and the
author/tag association loops (crud.py:40-63) are unreachable. -/
def create_paper (db : DB) (paper : PaperCreate) : Except PyErr (Paper × DB) :=
  if (match paper.doi with
      | some d => !(d == "") && check_doi_exists db d
      | none => false) then
    Except.error PyErr.valueError
  else
    Except.error PyErr.attributeError

/-- The five condition fields whose branch in `build_single_condition` coerces
the value with `int(...)`. -/
def numericField (f : String) : Bool :=
  f == "year_from" || f == "year_to" || f == "min_citations" ||
    f == "max_citations" || f == "venue_id"

/-- First-occurrence de-duplication of an id list against a seen set: the ids
the association insert loops actually insert. -/
def dedupFirst : List Int → List Int → List Int
  | [], _ => []
  | x :: xs, seen =>
    if seen.contains x then dedupFirst xs seen
    else x :: dedupFirst xs (x :: seen)

/-- The author ids linked to a paper, in table order. -/
def linkAuthorIds (db : DB) (pid : Int) : List Int :=
  (db.paper_authors.filter (fun pa => pa.paper_id == pid)).map (fun pa => pa.author_id)

/-- The tag ids linked to a paper, in table order. -/
def linkTagIds (db : DB) (pid : Int) : List Int :=
  (db.paper_tags.filter (fun pt => pt.paper_id == pid)).map (fun pt => pt.tag_id)

/-- A paper with only the required columns populated. -/
def pEx (i : Int) (t : String) : Paper :=
  ⟨i, t, none, 2020, none, some 0, none, none, none, none, none⟩

/-- A title-contains condition. -/
def condContains (s : String) : FilterCondition :=
  ⟨"c", "title_keyword", "contains", Value.vstr s⟩

/-- A condition on `author_name` whose value is blank, so the condition is
skipped while the field still triggers the author join. -/
def blankAuthorCond : FilterCondition :=
  ⟨"c1", "author_name", "contains", Value.vstr ""⟩

/-- One paper with no author rows. -/
def exDB1 : DB := ⟨[pEx 1 "solo"], [], [], [], []⟩

/-- A group whose only condition is the blank author condition. -/
def exRoot1 : FilterGroup := .mk "AND" [blankAuthorCond] []

/-- A condition whose numeric value does not parse as an integer. -/
def cBadInt : FilterCondition :=
  ⟨"c1", "min_citations", "equals", Value.vstr "zz"⟩

/-- A condition whose value is whitespace only. -/
def cBlank : FilterCondition :=
  ⟨"c2", "title_keyword", "contains", Value.vstr "  "⟩

/-- A group with one unparsable numeric condition and no subgroups. -/
def wRootC1 : FilterGroup := .mk "AND" [cBadInt] []

/-- A two-paper store with no association rows. -/
def wDBC1 : DB := ⟨[pEx 1 "a", pEx 2 "b"], [], [], [], []⟩

/-- AND(A, OR(B, C)) over title-contains conditions. -/
def nfNested : FilterGroup :=
  .mk "AND" [condContains "x"] [.mk "OR" [condContains "y", condContains "z"] []]

/-- The (wrong) flattening AND(A, B, C) of `nfNested`. -/
def nfFlat : FilterGroup :=
  .mk "AND" [condContains "x", condContains "y", condContains "z"] []

/-- A row whose title matches A and C but not B. -/
def rowNF : Row := ⟨pEx 1 "xz", none, none⟩

/-- An `author_name` condition inside a sub-group nested 3 levels deep. -/
def deepAuthorGroup : FilterGroup :=
  .mk "AND" [] [.mk "OR" [] [.mk "AND" [] [.mk "OR"
    [⟨"d", "author_name", "contains", Value.vstr "a"⟩] []]]]

/-- A stored paper whose DOI carries a leading space. -/
def pDoiSpace : Paper :=
  ⟨1, "foo", none, 2020, some " X", some 0, none, none, none, none, none⟩

/-- A second stored paper without a DOI. -/
def pOther : Paper :=
  ⟨2, "bar", none, 2021, none, some 0, none, none, none, none, none⟩

/-- Store for the DOI whitespace counterexample. -/
def exDB6 : DB := ⟨[pDoiSpace, pOther], [], [], [], []⟩

/-- A candidate whose DOI equals the stored one case-insensitively (including
the leading space) and whose title matches nothing. -/
def cand6 : PaperCreate :=
  ⟨"qq", none, 2022, some " x", none, none, none, none, none, none⟩

/-- A stored paper with a lowercase DOI. -/
def pW6 : Paper :=
  ⟨1, "t", none, 2020, some "10.1/x", some 0, none, none, none, none, none⟩

/-- Store for the case-insensitive DOI-match witness. -/
def dbW6 : DB := ⟨[pW6], [], [], [], []⟩

/-- A candidate with the case-differing DOI `10.1/X`. -/
def candW6 : PaperCreate :=
  ⟨"t2", none, 2022, some "10.1/X", none, none, none, none, none, none⟩

/-- An existing record with every mutable field populated plus one author link
and one tag link. -/
def p7 : Paper :=
  ⟨1, "old title", some "old abstract", 2000, some "10/old", some 3, some 7,
    none, none, some "u", some ["k"]⟩

/-- Store holding `p7` and its association rows. -/
def db7 : DB := ⟨[p7], [], [⟨1, 50, 1⟩], [], [⟨1, 9⟩]⟩

/-- A draft whose optional scalar fields are all `None` and whose id lists
contain duplicates. -/
def nd7 : PaperCreate :=
  ⟨"new title", none, 2021, none, none, none, none, none,
    some [4, 4, 5], some [2, 2, 3]⟩

/-- A draft that sets `citation_count` to 42 (and other fields too). -/
def nd8 : PaperCreate :=
  ⟨"n8", some "a8", 2019, none, some 42, none, none, none, none, none⟩

theorem buildSubConds_eq (gs : List FilterGroup) :
    buildSubConds gs = gs.filterMap build_query_conditions := by
  induction gs with
  | nil => rfl
  | cons g rest ih =>
    rw [buildSubConds, List.filterMap_cons]
    cases build_query_conditions g with
    | none => simpa using ih
    | some p => simpa using ih

theorem bqc_mk (op : String) (cs : List FilterCondition) (gs : List FilterGroup) :
    build_query_conditions (.mk op cs gs) =
      (if (survivors cs gs).isEmpty then none
       else if op == "AND" then some (fun r => (survivors cs gs).all (fun p => p r))
       else some (fun r => (survivors cs gs).any (fun p => p r))) := by
  simp only [build_query_conditions, survivors, buildSubConds_eq]

mutual
theorem check_author_eq_any (g : FilterGroup) :
    check_needs_author_join g = (allConds g).any (fun c => c.field == "author_name") := by
  match g with
  | .mk op cs gs =>
    simp [check_needs_author_join, allConds, anyAuthor_eq_any gs, List.any_append]
theorem anyAuthor_eq_any (gs : List FilterGroup) :
    anyNeedsAuthorJoin gs = (allCondsList gs).any (fun c => c.field == "author_name") := by
  match gs with
  | [] => simp [anyNeedsAuthorJoin, allCondsList]
  | g :: rest =>
    simp [anyNeedsAuthorJoin, allCondsList, check_author_eq_any g,
      anyAuthor_eq_any rest, List.any_append]
end

mutual
theorem check_tag_eq_any (g : FilterGroup) :
    check_needs_tag_join g = (allConds g).any (fun c => c.field == "tags") := by
  match g with
  | .mk op cs gs =>
    simp [check_needs_tag_join, allConds, anyTag_eq_any gs, List.any_append]
theorem anyTag_eq_any (gs : List FilterGroup) :
    anyNeedsTagJoin gs = (allCondsList gs).any (fun c => c.field == "tags") := by
  match gs with
  | [] => simp [anyNeedsTagJoin, allCondsList]
  | g :: rest =>
    simp [anyNeedsTagJoin, allCondsList, check_tag_eq_any g,
      anyTag_eq_any rest, List.any_append]
end

theorem queryRows_no_joins (db : DB) :
    queryRows db false false = db.papers.map (fun p => ⟨p, none, none⟩) := by
  unfold queryRows
  simp
  generalize db.papers = l
  induction l with
  | nil => rfl
  | cons p ps ih => simp [ih]

theorem distinctBy_eq_of_nodup (l : List Paper) (seen : List Int)
    (h : (l.map (fun p => p.id)).Nodup) (h2 : ∀ p ∈ l, p.id ∉ seen) :
    distinctBy seen l = l := by
  induction l generalizing seen with
  | nil => rfl
  | cons p ps ih =>
    have hc : seen.contains p.id = false := by
      rw [Bool.eq_false_iff]
      intro hcc
      exact h2 p (List.mem_cons_self p ps) (List.elem_iff.mp hcc)
    rw [List.map_cons, List.nodup_cons] at h
    obtain ⟨hpid, hps⟩ := h
    rw [distinctBy, hc]
    simp only [Bool.false_eq_true, if_false]
    congr 1
    apply ih _ hps
    intro q hq
    rw [List.mem_cons]
    rintro (h1 | h1)
    · exact hpid (List.mem_map.mpr ⟨q, hq, h1⟩)
    · exact h2 q (List.mem_cons_of_mem p hq) h1

/-- C1 (amended): a group all of whose direct conditions evaluate to Skip and
all of whose child groups compile to `None` itself compiles to `None` (whatever
its operator, including an empty group); and when the top-level compile result
is `None` the complex search applies no filter — provided the tree references
neither `author_name` nor `tags` (so no inner join is added), it returns
exactly the unfiltered paginated record set. -/
theorem c1_compile_none_no_filter :
    (∀ (op : String) (cs : List FilterCondition) (gs : List FilterGroup),
        (∀ c ∈ cs, build_single_condition c = none) →
        (∀ g ∈ gs, build_query_conditions g = none) →
        build_query_conditions (.mk op cs gs) = none) ∧
    (∀ (db : DB) (root : FilterGroup) (skip lim : Nat),
        build_query_conditions root = none →
        (∀ c ∈ allConds root, c.field ≠ "author_name" ∧ c.field ≠ "tags") →
        (db.papers.map (fun p => p.id)).Nodup →
        search_papers_complex db root skip lim = (db.papers.drop skip).take lim) := by
  constructor
  · intro op cs gs h1 h2
    rw [bqc_mk]
    have hs : survivors cs gs = [] := by
      rw [survivors, List.filterMap_eq_nil_iff.mpr h1, List.filterMap_eq_nil_iff.mpr h2]
      rfl
    simp [hs]
  · intro db root skip lim hnone hfields hnodup
    have ha : check_needs_author_join root = false := by
      rw [check_author_eq_any, List.any_eq_false]
      intro c hc
      simpa using (hfields c hc).1
    have ht : check_needs_tag_join root = false := by
      rw [check_tag_eq_any, List.any_eq_false]
      intro c hc
      simpa using (hfields c hc).2
    simp only [search_papers_complex, ha, ht, hnone]
    rw [queryRows_no_joins, List.map_map]
    have hid : ((fun (r : Row) => r.paper) ∘ fun p => (⟨p, none, none⟩ : Row)) = id := rfl
    rw [hid, List.map_id]
    rw [distinctBy_eq_of_nodup db.papers [] hnodup
      (by intro p hp; exact List.not_mem_nil p.id)]

/-- Witness for C1: a group with one unparsable condition compiles to `None`,
and on a join-free tree the unfiltered paginated record set comes back. -/
theorem c1_compile_none_no_filter_witness :
    build_query_conditions (.mk "OR" [cBadInt] []) = none ∧
    search_papers_complex wDBC1 wRootC1 0 100 = (wDBC1.papers.drop 0).take 100 := by
  constructor
  · exact c1_compile_none_no_filter.1 "OR" [cBadInt] []
      (by intro c hc; rw [List.mem_singleton] at hc; subst hc; rfl)
      (by intro g hg; exact absurd hg (List.not_mem_nil g))
  · exact c1_compile_none_no_filter.2 wDBC1 wRootC1 0 100 rfl (by decide) (by decide)

/-- Counterexample to C1 as stated: a tree whose only condition is a blank
`author_name` condition compiles to `None`, yet the complex search returns the
empty set — not the unfiltered record set — because the analyzer adds the
author inner join on the field name alone and the sole paper has no author
rows. -/
theorem c1_counterexample :
    build_query_conditions exRoot1 = none ∧
    search_papers_complex exDB1 exRoot1 0 100 = [] ∧
    (exDB1.papers.drop 0).take 100 = [pEx 1 "solo"] :=
  ⟨rfl, rfl, rfl⟩

/-- C2: with surviving predicates present, an `OR` group's compiled predicate
holds on a row iff at least one survivor holds (`List.any`), an `AND` group's
iff all survivors hold (`List.all`); each child group enters as a single
compiled sub-predicate, so AND(A, OR(B, C)) differs from the flattened
AND(A, B, C) on a row satisfying A and C but not B. -/
theorem c2_or_and_semantics :
    (∀ (cs : List FilterCondition) (gs : List FilterGroup) (r : Row),
        (survivors cs gs).isEmpty = false →
        evalOpt (build_query_conditions (.mk "OR" cs gs)) r =
          (survivors cs gs).any (fun q => q r)) ∧
    (∀ (cs : List FilterCondition) (gs : List FilterGroup) (r : Row),
        (survivors cs gs).isEmpty = false →
        evalOpt (build_query_conditions (.mk "AND" cs gs)) r =
          (survivors cs gs).all (fun q => q r)) ∧
    evalOpt (build_query_conditions nfNested) rowNF = true ∧
    evalOpt (build_query_conditions nfFlat) rowNF = false := by
  have hOr : (("OR" : String) == "AND") = false := by decide
  refine ⟨?_, ?_, rfl, rfl⟩
  · intro cs gs r h
    rw [bqc_mk]
    simp [h, hOr, evalOpt]
  · intro cs gs r h
    rw [bqc_mk]
    simp [h, evalOpt]

/-- Witness for C2: both group semantics applied to a singleton condition
list. -/
theorem c2_or_and_semantics_witness :
    evalOpt (build_query_conditions (.mk "OR" [condContains "x"] [])) rowNF =
      (survivors [condContains "x"] []).any (fun q => q rowNF) ∧
    evalOpt (build_query_conditions (.mk "AND" [condContains "x"] [])) rowNF =
      (survivors [condContains "x"] []).all (fun q => q rowNF) :=
  ⟨c2_or_and_semantics.1 _ _ _ rfl, c2_or_and_semantics.2.1 _ _ _ rfl⟩

/-- C3: `build_single_condition` is total (exceptions inside its `try` are
modelled by the `Option`-valued coercion `pyInt`), and it skips — returns
`none` rather than an error — every condition on a numeric field whose value
fails integer coercion, and every condition whose value is an empty or
whitespace-only string. -/
theorem c3_skip_malformed :
    (∀ c : FilterCondition, numericField c.field = true → pyInt c.value = none →
        build_single_condition c = none) ∧
    (∀ (c : FilterCondition) (s : String), c.value = Value.vstr s → pyStrip s = "" →
        build_single_condition c = none) := by
  constructor
  · rintro ⟨cid, field, op, v⟩ hf hi
    have hf' : (((field = "year_from" ∨ field = "year_to") ∨ field = "min_citations") ∨
        field = "max_citations") ∨ field = "venue_id" := by
      simpa [numericField] using hf
    cases hskip : skipValue v with
    | true => simp [build_single_condition, hskip]
    | false =>
      rcases hf' with (((h | h) | h) | h) | h <;> subst h <;>
        simp [build_single_condition, hskip, hi]
  · rintro ⟨cid, field, op, v⟩ s hv hs
    subst hv
    have hsk : skipValue (Value.vstr s) = true := by
      simp [skipValue, hs]
    simp [build_single_condition, hsk]

/-- Witness for C3: an unparsable `min_citations` value and a whitespace-only
value are both skipped. -/
theorem c3_skip_malformed_witness :
    (numericField cBadInt.field = true ∧ pyInt cBadInt.value = none ∧
      build_single_condition cBadInt = none) ∧
    (cBlank.value = Value.vstr "  " ∧ pyStrip "  " = "" ∧
      build_single_condition cBlank = none) :=
  ⟨⟨rfl, by decide, c3_skip_malformed.1 cBadInt rfl (by decide)⟩,
    ⟨rfl, by decide, c3_skip_malformed.2 cBlank "  " rfl (by decide)⟩⟩

/-- C4: each join analyzer returns true exactly when some condition at any
nesting depth of the tree has the relation's field (`author_name` for the
author join, `tags` for the tag join), independently of the enclosing
operators; in particular it finds a condition nested 3 sub-groups deep. -/
theorem c4_join_analyzer :
    (∀ g : FilterGroup,
        check_needs_author_join g = (allConds g).any (fun c => c.field == "author_name") ∧
        check_needs_tag_join g = (allConds g).any (fun c => c.field == "tags")) ∧
    check_needs_author_join deepAuthorGroup = true :=
  ⟨fun g => ⟨check_author_eq_any g, check_tag_eq_any g⟩, rfl⟩

/-- C10: any condition whose value is falsy under Python truthiness — the
empty string, the integer 0, the empty list, `None` — is skipped by
`build_single_condition` regardless of field and operator. -/
theorem c10_falsy_skipped :
    ∀ c : FilterCondition, pyTruthy c.value = false → build_single_condition c = none := by
  intro c h
  have hsk : skipValue c.value = true := by simp [skipValue, h]
  simp [build_single_condition, hsk]

/-- Witness for C10: `min_citations equals 0` and `tags in []` both contribute
nothing. -/
theorem c10_falsy_skipped_witness :
    (pyTruthy (Value.vint 0) = false ∧
      build_single_condition ⟨"z1", "min_citations", "equals", Value.vint 0⟩ = none) ∧
    (pyTruthy (Value.vlist []) = false ∧
      build_single_condition ⟨"z2", "tags", "in", Value.vlist []⟩ = none) :=
  ⟨⟨rfl, c10_falsy_skipped _ rfl⟩, ⟨rfl, c10_falsy_skipped _ rfl⟩⟩

theorem opt_overlay {α : Type} (o : Option α) (b : Option α) :
    (o.map some).getD b = o.or b := by
  cases o <;> rfl

theorem buildAuthorLinks_map (pid : Int) (ids : List Int) (i : Nat) (seen : List Int) :
    (buildAuthorLinks pid ids i seen).map (fun pa => pa.author_id) = dedupFirst ids seen := by
  induction ids generalizing i seen with
  | nil => rfl
  | cons a rest ih =>
    rw [buildAuthorLinks, dedupFirst]
    by_cases h : seen.contains a
    · simp only [h, if_true, ih]
    · simp only [h, Bool.false_eq_true, if_false, List.map_cons, ih]

theorem buildAuthorLinks_pid (pid : Int) (ids : List Int) (i : Nat) (seen : List Int) :
    ∀ pa ∈ buildAuthorLinks pid ids i seen, pa.paper_id = pid := by
  induction ids generalizing i seen with
  | nil => intro pa hpa; cases hpa
  | cons a rest ih =>
    intro pa hpa
    rw [buildAuthorLinks] at hpa
    by_cases h : seen.contains a
    · rw [if_pos h] at hpa
      exact ih _ _ pa hpa
    · rw [if_neg h] at hpa
      rcases List.mem_cons.mp hpa with h1 | h1
      · rw [h1]
      · exact ih _ _ pa h1

theorem buildTagLinks_map (pid : Int) (ids : List Int) (seen : List Int) :
    (buildTagLinks pid ids seen).map (fun pt => pt.tag_id) = dedupFirst ids seen := by
  induction ids generalizing seen with
  | nil => rfl
  | cons a rest ih =>
    rw [buildTagLinks, dedupFirst]
    by_cases h : seen.contains a
    · simp only [h, if_true, ih]
    · simp only [h, Bool.false_eq_true, if_false, List.map_cons, ih]

theorem buildTagLinks_pid (pid : Int) (ids : List Int) (seen : List Int) :
    ∀ pt ∈ buildTagLinks pid ids seen, pt.paper_id = pid := by
  induction ids generalizing seen with
  | nil => intro pt hpt; cases hpt
  | cons a rest ih =>
    intro pt hpt
    rw [buildTagLinks] at hpt
    by_cases h : seen.contains a
    · rw [if_pos h] at hpt
      exact ih _ pt hpt
    · rw [if_neg h] at hpt
      rcases List.mem_cons.mp hpt with h1 | h1
      · rw [h1]
      · exact ih _ pt h1

theorem replaced_author_links (db : DB) (pid : Int) (ids : List Int) :
    ((db.paper_authors.filter (fun pa => !(pa.paper_id == pid)) ++
        buildAuthorLinks pid ids 0 []).filter (fun pa => pa.paper_id == pid)).map
      (fun pa => pa.author_id) = dedupFirst ids [] := by
  rw [List.filter_append]
  have h1 : (db.paper_authors.filter (fun pa => !(pa.paper_id == pid))).filter
      (fun pa => pa.paper_id == pid) = [] := by
    rw [List.filter_filter]
    apply List.filter_eq_nil_iff.mpr
    intro pa _
    cases h : pa.paper_id == pid <;> simp [h]
  have h2 : (buildAuthorLinks pid ids 0 []).filter (fun pa => pa.paper_id == pid) =
      buildAuthorLinks pid ids 0 [] := by
    apply List.filter_eq_self.mpr
    intro pa hpa
    simpa using buildAuthorLinks_pid pid ids 0 [] pa hpa
  rw [h1, h2, List.nil_append, buildAuthorLinks_map]

theorem replaced_tag_links (db : DB) (pid : Int) (ids : List Int) :
    ((db.paper_tags.filter (fun pt => !(pt.paper_id == pid)) ++
        buildTagLinks pid ids []).filter (fun pt => pt.paper_id == pid)).map
      (fun pt => pt.tag_id) = dedupFirst ids [] := by
  rw [List.filter_append]
  have h1 : (db.paper_tags.filter (fun pt => !(pt.paper_id == pid))).filter
      (fun pt => pt.paper_id == pid) = [] := by
    rw [List.filter_filter]
    apply List.filter_eq_nil_iff.mpr
    intro pt _
    cases h : pt.paper_id == pid <;> simp [h]
  have h2 : (buildTagLinks pid ids []).filter (fun pt => pt.paper_id == pid) =
      buildTagLinks pid ids [] := by
    apply List.filter_eq_self.mpr
    intro pt hpt
    simpa using buildTagLinks_pid pid ids [] pt hpt
  rw [h1, h2, List.nil_append, buildTagLinks_map]

/-- C6 (amended): when the candidate has a non-empty DOI and some stored
record's DOI equals the whitespace-trimmed candidate DOI case-insensitively
(the stored side is compared untrimmed), `search_related_papers` returns
immediately the one-element list holding the first such record — whatever the
titles are, so all title matching is skipped. -/
theorem c6_doi_match_authoritative (db : DB) (pd : PaperCreate) (lim : Nat)
    (d : String) (p : Paper)
    (hd : pd.doi = some d) (hne : (d == "") = false)
    (hfind : db.papers.find? (doiMatch (pyLower (pyStrip d))) = some p) :
    search_related_papers db pd lim = [p] ∧ p ∈ db.papers ∧
      doiMatch (pyLower (pyStrip d)) p = true := by
  refine ⟨?_, List.mem_of_find?_eq_some hfind, List.find?_some hfind⟩
  simp only [search_related_papers, hd, hne, Bool.false_eq_true, if_false, hfind]

/-- Witness for C6: candidate DOI `10.1/X` finds the stored record with DOI
`10.1/x`. -/
theorem c6_doi_match_authoritative_witness :
    search_related_papers dbW6 candW6 5 = [pW6] ∧ pW6 ∈ dbW6.papers ∧
      doiMatch (pyLower (pyStrip "10.1/X")) pW6 = true :=
  c6_doi_match_authoritative dbW6 candW6 5 "10.1/X" pW6 rfl rfl rfl

/-- Counterexample to C6 as stated: the stored DOI ` X` equals the candidate
DOI ` x` case-insensitively, yet because only the candidate side is stripped
the lookup misses, title matching runs, and the two-element fallback list is
returned instead of the one-element list with the matching record. -/
theorem c6_counterexample :
    pyLower " X" = pyLower " x" ∧
    pDoiSpace.doi = some " X" ∧ cand6.doi = some " x" ∧
    search_related_papers exDB6 cand6 5 = [pDoiSpace, pOther] := by
  refine ⟨by decide, rfl, rfl, by decide⟩

/-- C7 (amended): `merge` with mode `overwrite` replaces the required fields
and every optional scalar field whose draft value is non-`None` (a `None`
draft value keeps the existing value instead of clearing it), and replaces the
author/tag association lists whenever the draft lists are present (their
schema default is `[]`, which clears the associations), de-duplicating
repeated ids. -/
theorem c7_overwrite_semantics (db : DB) (pid : Int) (nd : PaperCreate) (p : Paper)
    (hfind : db.papers.find? (fun q => q.id == pid) = some p) :
    (merge_paper db pid nd "overwrite" none).1.map (fun q => q.title) = some nd.title ∧
    (merge_paper db pid nd "overwrite" none).1.map (fun q => q.publication_year) =
      some nd.publication_year ∧
    (merge_paper db pid nd "overwrite" none).1.map (fun q => q.abstract) =
      some (nd.abstract.or p.abstract) ∧
    (merge_paper db pid nd "overwrite" none).1.map (fun q => q.doi) =
      some (nd.doi.or p.doi) ∧
    (merge_paper db pid nd "overwrite" none).1.map (fun q => q.citation_count) =
      some (nd.citation_count.or p.citation_count) ∧
    (merge_paper db pid nd "overwrite" none).1.map (fun q => q.venue_id) =
      some (nd.venue_id.or p.venue_id) ∧
    (merge_paper db pid nd "overwrite" none).1.map (fun q => q.keywords) =
      some (nd.keywords.or p.keywords) ∧
    (merge_paper db pid nd "overwrite" none).1.map (fun q => q.url) =
      some (nd.url.or p.url) ∧
    linkAuthorIds (merge_paper db pid nd "overwrite" none).2 pid =
      (nd.author_ids.map (fun ids => dedupFirst ids [])).getD (linkAuthorIds db pid) ∧
    linkTagIds (merge_paper db pid nd "overwrite" none).2 pid =
      (nd.tag_ids.map (fun ids => dedupFirst ids [])).getD (linkTagIds db pid) := by
  have e1 : (("overwrite" : String) == "keep_old") = false := by decide
  have e2 : (("overwrite" : String) == "overwrite") = true := by decide
  have hm : merge_paper db pid nd "overwrite" none =
      update_paper db pid (paperCreateToUpdate nd) := by
    simp [merge_paper, hfind, e1, e2]
  rw [hm]
  simp only [update_paper, hfind]
  refine ⟨?_, ?_, ?_, ?_, ?_, ?_, ?_, ?_, ?_, ?_⟩
  · simp [applyUpdate, paperCreateToUpdate]
  · simp [applyUpdate, paperCreateToUpdate]
  · simp [applyUpdate, paperCreateToUpdate, opt_overlay]
  · simp [applyUpdate, paperCreateToUpdate, opt_overlay]
  · simp [applyUpdate, paperCreateToUpdate, opt_overlay]
  · simp [applyUpdate, paperCreateToUpdate, opt_overlay]
  · simp [applyUpdate, paperCreateToUpdate, opt_overlay]
  · simp [applyUpdate, paperCreateToUpdate, opt_overlay]
  · cases hai : nd.author_ids with
    | none => simp [paperCreateToUpdate, hai, linkAuthorIds]
    | some ids =>
      simp only [paperCreateToUpdate, hai, Option.map_some', Option.getD_some, linkAuthorIds]
      exact replaced_author_links db pid ids
  · cases hti : nd.tag_ids with
    | none => simp [paperCreateToUpdate, hti, linkTagIds]
    | some ids =>
      simp only [paperCreateToUpdate, hti, Option.map_some', Option.getD_some, linkTagIds]
      exact replaced_tag_links db pid ids

/-- Witness for C7: overwrite-merging `nd7` into `db7` replaces the title and
the association lists (with duplicate ids collapsed). -/
theorem c7_overwrite_semantics_witness :
    (merge_paper db7 1 nd7 "overwrite" none).1.map (fun q => q.title) = some nd7.title ∧
    (merge_paper db7 1 nd7 "overwrite" none).1.map (fun q => q.publication_year) =
      some nd7.publication_year ∧
    (merge_paper db7 1 nd7 "overwrite" none).1.map (fun q => q.abstract) =
      some (nd7.abstract.or p7.abstract) ∧
    (merge_paper db7 1 nd7 "overwrite" none).1.map (fun q => q.doi) =
      some (nd7.doi.or p7.doi) ∧
    (merge_paper db7 1 nd7 "overwrite" none).1.map (fun q => q.citation_count) =
      some (nd7.citation_count.or p7.citation_count) ∧
    (merge_paper db7 1 nd7 "overwrite" none).1.map (fun q => q.venue_id) =
      some (nd7.venue_id.or p7.venue_id) ∧
    (merge_paper db7 1 nd7 "overwrite" none).1.map (fun q => q.keywords) =
      some (nd7.keywords.or p7.keywords) ∧
    (merge_paper db7 1 nd7 "overwrite" none).1.map (fun q => q.url) =
      some (nd7.url.or p7.url) ∧
    linkAuthorIds (merge_paper db7 1 nd7 "overwrite" none).2 1 =
      (nd7.author_ids.map (fun ids => dedupFirst ids [])).getD (linkAuthorIds db7 1) ∧
    linkTagIds (merge_paper db7 1 nd7 "overwrite" none).2 1 =
      (nd7.tag_ids.map (fun ids => dedupFirst ids [])).getD (linkTagIds db7 1) :=
  c7_overwrite_semantics db7 1 nd7 p7 rfl

/-- Counterexample to C7 as stated: the draft `nd7` has `abstract = None`, yet
overwrite-merging it keeps the existing abstract instead of replacing the
field with the draft's value — the mutable field `abstract` is not replaced. -/
theorem c7_counterexample :
    nd7.abstract = none ∧
    (merge_paper db7 1 nd7 "overwrite" none).1.map (fun q => q.abstract) =
      some (some "old abstract") ∧
    p7.abstract = some "old abstract" := by
  refine ⟨rfl, by decide, rfl⟩

/-- C9 is a code bug: `create_paper` reads `paper.document_type` (crud.py:33),
a field that exists neither on `PaperCreate` nor on the `Paper` model, so
every call raises (`ValueError` on a duplicate DOI, otherwise
`AttributeError`) and never returns a created record — in particular the
spec's scenario `tag_ids=[1,1,2]` never reaches the tag-association loop. -/
theorem c9_create_paper_always_raises :
    ∀ (db : DB) (pc : PaperCreate) (res : Paper × DB),
      create_paper db pc ≠ Except.ok res := by
  intro db pc res h
  unfold create_paper at h
  split at h <;> exact Except.noConfusion h

/-- C8: `merge` with mode `merge_fields` and a non-empty fields list changes
only the named fields — every unnamed scalar field and both association tables
are left exactly as they were — while each named field takes the draft's value
through the update semantics; with an absent or empty fields list it behaves
as `keep_old`, returning the existing record and leaving the store
untouched. -/
theorem c8_merge_fields_frame (db : DB) (pid : Int) (nd : PaperCreate) (p : Paper)
    (hfind : db.papers.find? (fun q => q.id == pid) = some p) :
    merge_paper db pid nd "merge_fields" none = (some p, db) ∧
    merge_paper db pid nd "merge_fields" (some []) = (some p, db) ∧
    (∀ fs : List String, fs ≠ [] →
      ("title" ∉ fs →
        (merge_paper db pid nd "merge_fields" (some fs)).1.map (fun q => q.title) =
          some p.title) ∧
      ("title" ∈ fs →
        (merge_paper db pid nd "merge_fields" (some fs)).1.map (fun q => q.title) =
          some nd.title) ∧
      ("abstract" ∉ fs →
        (merge_paper db pid nd "merge_fields" (some fs)).1.map (fun q => q.abstract) =
          some p.abstract) ∧
      ("abstract" ∈ fs →
        (merge_paper db pid nd "merge_fields" (some fs)).1.map (fun q => q.abstract) =
          some (nd.abstract.or p.abstract)) ∧
      ("publication_year" ∉ fs →
        (merge_paper db pid nd "merge_fields" (some fs)).1.map (fun q => q.publication_year) =
          some p.publication_year) ∧
      ("doi" ∉ fs →
        (merge_paper db pid nd "merge_fields" (some fs)).1.map (fun q => q.doi) =
          some p.doi) ∧
      ("citation_count" ∉ fs →
        (merge_paper db pid nd "merge_fields" (some fs)).1.map (fun q => q.citation_count) =
          some p.citation_count) ∧
      ("citation_count" ∈ fs →
        (merge_paper db pid nd "merge_fields" (some fs)).1.map (fun q => q.citation_count) =
          some (nd.citation_count.or p.citation_count)) ∧
      ("venue_id" ∉ fs →
        (merge_paper db pid nd "merge_fields" (some fs)).1.map (fun q => q.venue_id) =
          some p.venue_id) ∧
      ("keywords" ∉ fs →
        (merge_paper db pid nd "merge_fields" (some fs)).1.map (fun q => q.keywords) =
          some p.keywords) ∧
      ("url" ∉ fs →
        (merge_paper db pid nd "merge_fields" (some fs)).1.map (fun q => q.url) =
          some p.url) ∧
      ("author_ids" ∉ fs →
        (merge_paper db pid nd "merge_fields" (some fs)).2.paper_authors =
          db.paper_authors) ∧
      ("tag_ids" ∉ fs →
        (merge_paper db pid nd "merge_fields" (some fs)).2.paper_tags =
          db.paper_tags)) := by
  have e1 : (("merge_fields" : String) == "keep_old") = false := by decide
  have e2 : (("merge_fields" : String) == "overwrite") = false := by decide
  have e3 : (("merge_fields" : String) == "merge_fields") = true := by decide
  refine ⟨by simp [merge_paper, hfind, e1, e2, e3], by simp [merge_paper, hfind, e1, e2, e3], ?_⟩
  intro fs hfs
  have hm : merge_paper db pid nd "merge_fields" (some fs) =
      update_paper db pid (selectFields nd fs) := by
    cases fs with
    | nil => exact absurd rfl hfs
    | cons a rest => simp [merge_paper, hfind, e1, e2, e3]
  rw [hm]
  simp only [update_paper, hfind]
  refine ⟨?_, ?_, ?_, ?_, ?_, ?_, ?_, ?_, ?_, ?_, ?_, ?_, ?_⟩
  · intro h
    simp [applyUpdate, selectFields, h]
  · intro h
    simp [applyUpdate, selectFields, h]
  · intro h
    simp [applyUpdate, selectFields, h]
  · intro h
    simp [applyUpdate, selectFields, h, opt_overlay]
  · intro h
    simp [applyUpdate, selectFields, h]
  · intro h
    simp [applyUpdate, selectFields, h]
  · intro h
    simp [applyUpdate, selectFields, h]
  · intro h
    simp [applyUpdate, selectFields, h, opt_overlay]
  · intro h
    simp [applyUpdate, selectFields, h]
  · intro h
    simp [applyUpdate, selectFields, h]
  · intro h
    simp [applyUpdate, selectFields, h]
  · intro h
    simp [selectFields, h]
  · intro h
    simp [selectFields, h]

/-- Witness for C8: merging `nd8` into `db7` with `fields = ["citation_count"]`
changes only the citation count; empty and absent field lists act as
`keep_old`. -/
theorem c8_merge_fields_frame_witness :
    merge_paper db7 1 nd8 "merge_fields" none = (some p7, db7) ∧
    merge_paper db7 1 nd8 "merge_fields" (some []) = (some p7, db7) ∧
    (("title" ∉ ["citation_count"] →
      (merge_paper db7 1 nd8 "merge_fields" (some ["citation_count"])).1.map
        (fun q => q.title) = some p7.title) ∧
    ("title" ∈ ["citation_count"] →
      (merge_paper db7 1 nd8 "merge_fields" (some ["citation_count"])).1.map
        (fun q => q.title) = some nd8.title) ∧
    ("abstract" ∉ ["citation_count"] →
      (merge_paper db7 1 nd8 "merge_fields" (some ["citation_count"])).1.map
        (fun q => q.abstract) = some p7.abstract) ∧
    ("abstract" ∈ ["citation_count"] →
      (merge_paper db7 1 nd8 "merge_fields" (some ["citation_count"])).1.map
        (fun q => q.abstract) = some (nd8.abstract.or p7.abstract)) ∧
    ("publication_year" ∉ ["citation_count"] →
      (merge_paper db7 1 nd8 "merge_fields" (some ["citation_count"])).1.map
        (fun q => q.publication_year) = some p7.publication_year) ∧
    ("doi" ∉ ["citation_count"] →
      (merge_paper db7 1 nd8 "merge_fields" (some ["citation_count"])).1.map
        (fun q => q.doi) = some p7.doi) ∧
    ("citation_count" ∉ ["citation_count"] →
      (merge_paper db7 1 nd8 "merge_fields" (some ["citation_count"])).1.map
        (fun q => q.citation_count) = some p7.citation_count) ∧
    ("citation_count" ∈ ["citation_count"] →
      (merge_paper db7 1 nd8 "merge_fields" (some ["citation_count"])).1.map
        (fun q => q.citation_count) = some (nd8.citation_count.or p7.citation_count)) ∧
    ("venue_id" ∉ ["citation_count"] →
      (merge_paper db7 1 nd8 "merge_fields" (some ["citation_count"])).1.map
        (fun q => q.venue_id) = some p7.venue_id) ∧
    ("keywords" ∉ ["citation_count"] →
      (merge_paper db7 1 nd8 "merge_fields" (some ["citation_count"])).1.map
        (fun q => q.keywords) = some p7.keywords) ∧
    ("url" ∉ ["citation_count"] →
      (merge_paper db7 1 nd8 "merge_fields" (some ["citation_count"])).1.map
        (fun q => q.url) = some p7.url) ∧
    ("author_ids" ∉ ["citation_count"] →
      (merge_paper db7 1 nd8 "merge_fields" (some ["citation_count"])).2.paper_authors =
        db7.paper_authors) ∧
    ("tag_ids" ∉ ["citation_count"] →
      (merge_paper db7 1 nd8 "merge_fields" (some ["citation_count"])).2.paper_tags =
        db7.paper_tags)) := by
  have h := c8_merge_fields_frame db7 1 nd8 p7 rfl
  exact ⟨h.1, h.2.1, h.2.2 ["citation_count"] (List.cons_ne_nil _ _)⟩

theorem toNat_ofNat_valid (n : ℕ) (h : n < 55296) : (Char.ofNat n).toNat = n := by
  unfold Char.ofNat
  rw [dif_pos (Or.inl h)]
  rfl

theorem pyLowerChar_idem (c : Char) : pyLowerChar (pyLowerChar c) = pyLowerChar c := by
  unfold pyLowerChar
  by_cases h : 65 ≤ c.toNat ∧ c.toNat ≤ 90
  · rw [if_pos h]
    have h2 : (Char.ofNat (c.toNat + 32)).toNat = c.toNat + 32 :=
      toNat_ofNat_valid _ (by omega)
    rw [if_neg (by rw [h2]; omega)]
  · rw [if_neg h, if_neg h]

theorem pyLowerChar_eq_iff_of_notLetter (c a : Char)
    (ha : ¬ (97 ≤ a.toNat ∧ a.toNat ≤ 122)) (ha2 : ¬ (65 ≤ a.toNat ∧ a.toNat ≤ 90)) :
    pyLowerChar c = a ↔ c = a := by
  unfold pyLowerChar
  by_cases h : 65 ≤ c.toNat ∧ c.toNat ≤ 90
  · rw [if_pos h]
    have h2 : (Char.ofNat (c.toNat + 32)).toNat = c.toNat + 32 :=
      toNat_ofNat_valid _ (by omega)
    constructor
    · intro he
      have h3 := congrArg Char.toNat he
      rw [h2] at h3
      exact absurd ⟨by omega, by omega⟩ ha
    · intro he
      subst he
      exact absurd h ha2
  · rw [if_neg h]

theorem pyLowerChar_space_iff (c : Char) : pyLowerChar c = ' ' ↔ c = ' ' :=
  pyLowerChar_eq_iff_of_notLetter c ' ' (by decide) (by decide)

theorem map_pyLowerChar_idem (l : List Char) :
    (l.map pyLowerChar).map pyLowerChar = l.map pyLowerChar := by
  rw [List.map_map]
  exact List.map_congr_left (fun a _ => pyLowerChar_idem a)

theorem replaceAllFuel_single_id (a : Char) (rep : List Char) (fuel : Nat)
    (l : List Char) (h : a ∉ l) : replaceAllFuel [a] rep fuel l = l := by
  induction fuel generalizing l with
  | zero => cases l <;> rfl
  | succ fuel ih =>
    cases l with
    | nil => rfl
    | cons c cs =>
      have hne : (a == c) = false := by
        rw [beq_eq_false_iff_ne]
        intro he
        exact h (he ▸ List.mem_cons_self c cs)
      rw [replaceAllFuel]
      have hguard : (!([a] : List Char).isEmpty && ([a] : List Char).isPrefixOf (c :: cs)) = false := by
        simp [List.isPrefixOf, hne]
      rw [hguard]
      simp only [Bool.false_eq_true, if_false]
      rw [ih cs (fun hm => h (List.mem_cons_of_mem c hm))]

theorem replaceAllFuel_nosp_id (rep : List Char) (fuel : Nat) (l : List Char)
    (h : List.Chain' (fun a b => ¬(a = ' ' ∧ b = ' ')) l) :
    replaceAllFuel [' ', ' '] rep fuel l = l := by
  induction fuel generalizing l with
  | zero => cases l <;> rfl
  | succ fuel ih =>
    cases l with
    | nil => rfl
    | cons c cs =>
      cases cs with
      | nil =>
        rw [replaceAllFuel]
        have hguard : (!([' ', ' '] : List Char).isEmpty &&
            ([' ', ' '] : List Char).isPrefixOf [c]) = false := by
          simp [List.isPrefixOf]
        rw [hguard]
        simp only [Bool.false_eq_true, if_false]
        rw [ih [] List.chain'_nil]
      | cons d ds =>
        have hcd : ¬(c = ' ' ∧ d = ' ') := (List.chain'_cons.mp h).1
        rw [replaceAllFuel]
        have hguard : (!([' ', ' '] : List Char).isEmpty &&
            ([' ', ' '] : List Char).isPrefixOf (c :: d :: ds)) = false := by
          simp only [List.isPrefixOf, Bool.and_true, List.isEmpty_cons, Bool.not_false,
            Bool.true_and]
          cases hc : (' ' == c) with
          | false => rfl
          | true =>
            cases hd : (' ' == d) with
            | false => simp
            | true =>
              exact absurd ⟨(beq_iff_eq.mp hc).symm, (beq_iff_eq.mp hd).symm⟩ hcd
        rw [hguard]
        simp only [Bool.false_eq_true, if_false]
        rw [ih (d :: ds) (List.chain'_cons.mp h).2]

theorem mem_of_headQ {l : List Char} {c : Char} (h : l.head? = some c) : c ∈ l := by
  cases l with
  | nil => exact absurd h (by simp)
  | cons x xs =>
    rw [List.head?_cons] at h
    injection h with h
    exact List.mem_cons.mpr (Or.inl h.symm)

theorem mem_of_getLastQ {l : List Char} {c : Char} (h : l.getLast? = some c) : c ∈ l := by
  induction l with
  | nil => exact absurd h (by simp)
  | cons x xs ih =>
    cases xs with
    | nil =>
      rw [List.getLast?_singleton] at h
      injection h with h
      exact List.mem_cons.mpr (Or.inl h.symm)
    | cons y ys =>
      rw [List.getLast?_cons_cons] at h
      exact List.mem_cons_of_mem x (ih h)

theorem pySplitAux_words (l : List Char) : ∀ acc, (∀ c ∈ acc, isPyWs c = false) →
    ∀ w ∈ pySplitAux l acc, w ≠ [] ∧ ∀ c ∈ w, isPyWs c = false := by
  induction l with
  | nil =>
    intro acc hacc w hw
    rw [pySplitAux] at hw
    by_cases he : acc.isEmpty
    · rw [if_pos he] at hw
      exact absurd hw (List.not_mem_nil w)
    · rw [if_neg he] at hw
      rw [List.mem_singleton] at hw
      subst hw
      constructor
      · intro h0
        have hnil : acc = [] := List.reverse_eq_nil_iff.mp h0
        rw [hnil] at he
        exact he rfl
      · intro c hc
        exact hacc c (List.mem_reverse.mp hc)
  | cons x xs ih =>
    intro acc hacc w hw
    rw [pySplitAux] at hw
    by_cases hx : isPyWs x
    · rw [if_pos hx] at hw
      by_cases he : acc.isEmpty
      · rw [if_pos he] at hw
        exact ih [] (by intro c hc; cases hc) w hw
      · rw [if_neg he] at hw
        rcases List.mem_cons.mp hw with h1 | h1
        · subst h1
          constructor
          · intro h0
            have hnil : acc = [] := List.reverse_eq_nil_iff.mp h0
            rw [hnil] at he
            exact he rfl
          · intro c hc
            exact hacc c (List.mem_reverse.mp hc)
        · exact ih [] (by intro c hc; cases hc) w h1
    · rw [if_neg hx] at hw
      refine ih (x :: acc) ?_ w hw
      intro c hc
      rcases List.mem_cons.mp hc with h1 | h1
      · subst h1
        exact Bool.eq_false_iff.mpr hx
      · exact hacc c h1

theorem joinSp_mem (ws : List (List Char))
    (h : ∀ w ∈ ws, w ≠ [] ∧ ∀ c ∈ w, isPyWs c = false) :
    ∀ c ∈ joinSp ws, c = ' ' ∨ isPyWs c = false := by
  induction ws with
  | nil =>
    intro c hc
    simp [joinSp] at hc
  | cons w ws ih =>
    cases ws with
    | nil =>
      intro c hc
      rw [show joinSp [w] = w from rfl] at hc
      exact Or.inr ((h w (List.mem_cons_self _ _)).2 c hc)
    | cons w2 rest =>
      intro c hc
      rw [show joinSp (w :: w2 :: rest) = w ++ ' ' :: joinSp (w2 :: rest) from rfl] at hc
      rcases List.mem_append.mp hc with h1 | h1
      · exact Or.inr ((h w (List.mem_cons_self _ _)).2 c h1)
      · rcases List.mem_cons.mp h1 with h2 | h2
        · exact Or.inl h2
        · exact ih (fun v hv => h v (List.mem_cons_of_mem _ hv)) c h2

theorem joinSp_ne_nil (w : List Char) (ws : List (List Char)) (hw : w ≠ []) :
    joinSp (w :: ws) ≠ [] := by
  cases ws with
  | nil => exact hw
  | cons w2 rest =>
    rw [show joinSp (w :: w2 :: rest) = w ++ ' ' :: joinSp (w2 :: rest) from rfl]
    intro h0
    simp at h0

theorem joinSp_head (ws : List (List Char))
    (h : ∀ w ∈ ws, w ≠ [] ∧ ∀ c ∈ w, isPyWs c = false) :
    ∀ c, (joinSp ws).head? = some c → isPyWs c = false := by
  cases ws with
  | nil =>
    intro c hc
    exact absurd hc (by simp [joinSp])
  | cons w ws =>
    intro c hc
    have hwne := (h w (List.mem_cons_self _ _)).1
    obtain ⟨x, xs, rfl⟩ := List.exists_cons_of_ne_nil hwne
    cases ws with
    | nil =>
      rw [show joinSp [x :: xs] = x :: xs from rfl, List.head?_cons] at hc
      injection hc with hc
      subst hc
      exact (h _ (List.mem_cons_self _ _)).2 _ (List.mem_cons_self _ _)
    | cons w2 rest =>
      rw [show joinSp ((x :: xs) :: w2 :: rest) =
        (x :: xs) ++ ' ' :: joinSp (w2 :: rest) from rfl] at hc
      rw [List.cons_append, List.head?_cons] at hc
      injection hc with hc
      subst hc
      exact (h _ (List.mem_cons_self _ _)).2 _ (List.mem_cons_self _ _)

theorem joinSp_last (ws : List (List Char))
    (h : ∀ w ∈ ws, w ≠ [] ∧ ∀ c ∈ w, isPyWs c = false) :
    ∀ c, (joinSp ws).getLast? = some c → isPyWs c = false := by
  induction ws with
  | nil =>
    intro c hc
    exact absurd hc (by simp [joinSp])
  | cons w ws ih =>
    cases ws with
    | nil =>
      intro c hc
      rw [show joinSp [w] = w from rfl] at hc
      exact (h w (List.mem_cons_self _ _)).2 c (mem_of_getLastQ hc)
    | cons w2 rest =>
      intro c hc
      rw [show joinSp (w :: w2 :: rest) = w ++ ' ' :: joinSp (w2 :: rest) from rfl,
        List.getLast?_append] at hc
      have hJne : joinSp (w2 :: rest) ≠ [] :=
        joinSp_ne_nil w2 rest (h w2 (List.mem_cons_of_mem _ (List.mem_cons_self _ _))).1
      obtain ⟨d, ds, hds⟩ := List.exists_cons_of_ne_nil hJne
      rw [hds, List.getLast?_cons_cons] at hc
      cases hg : (d :: ds).getLast? with
      | none =>
        rw [List.getLast?_eq_none_iff] at hg
        exact absurd hg (List.cons_ne_nil d ds)
      | some e =>
        rw [hg, show (some e).or w.getLast? = some e from rfl] at hc
        refine ih (fun v hv => h v (List.mem_cons_of_mem _ hv)) c ?_
        rw [hds, hg]
        exact hc

theorem chain'_of_no_space (l : List Char) (h : ∀ a ∈ l, a ≠ ' ') :
    List.Chain' (fun a b => ¬(a = ' ' ∧ b = ' ')) l := by
  induction l with
  | nil => exact List.chain'_nil
  | cons x xs ih =>
    cases xs with
    | nil => exact List.chain'_singleton x
    | cons y ys =>
      rw [List.chain'_cons]
      exact ⟨fun hp => h x (List.mem_cons_self _ _) hp.1,
        ih (fun a ha => h a (List.mem_cons_of_mem _ ha))⟩

theorem joinSp_chain (ws : List (List Char))
    (h : ∀ w ∈ ws, w ≠ [] ∧ ∀ c ∈ w, isPyWs c = false) :
    List.Chain' (fun a b => ¬(a = ' ' ∧ b = ' ')) (joinSp ws) := by
  induction ws with
  | nil => exact List.chain'_nil
  | cons w ws ih =>
    cases ws with
    | nil =>
      rw [show joinSp [w] = w from rfl]
      apply chain'_of_no_space
      intro a ha hsp
      have hws := (h w (List.mem_cons_self _ _)).2 a ha
      rw [hsp] at hws
      exact absurd hws (by decide)
    | cons w2 rest =>
      rw [show joinSp (w :: w2 :: rest) = w ++ ' ' :: joinSp (w2 :: rest) from rfl,
        List.chain'_append]
      refine ⟨?_, ?_, ?_⟩
      · apply chain'_of_no_space
        intro a ha hsp
        have hws := (h w (List.mem_cons_self _ _)).2 a ha
        rw [hsp] at hws
        exact absurd hws (by decide)
      · have hJ := ih (fun v hv => h v (List.mem_cons_of_mem _ hv))
        have hJne : joinSp (w2 :: rest) ≠ [] :=
          joinSp_ne_nil w2 rest (h w2 (List.mem_cons_of_mem _ (List.mem_cons_self _ _))).1
        obtain ⟨d, ds, hds⟩ := List.exists_cons_of_ne_nil hJne
        rw [hds, List.chain'_cons]
        constructor
        · intro hp
          have hd : isPyWs d = false := by
            apply joinSp_head (w2 :: rest) (fun v hv => h v (List.mem_cons_of_mem _ hv)) d
            rw [hds, List.head?_cons]
          rw [hp.2] at hd
          exact absurd hd (by decide)
        · rw [← hds]
          exact hJ
      · intro x hx y _ hp
        have hxw : x ∈ w := mem_of_getLastQ (Option.mem_def.mp hx)
        have hws := (h w (List.mem_cons_self _ _)).2 x hxw
        rw [hp.1] at hws
        exact absurd hws (by decide)

theorem pyStripL_id (l : List Char)
    (h1 : ∀ c, l.head? = some c → isPyWs c = false)
    (h2 : ∀ c, l.getLast? = some c → isPyWs c = false) :
    pyStripL l = l := by
  cases l with
  | nil => rfl
  | cons x xs =>
    have hx : isPyWs x = false := h1 x (by rw [List.head?_cons])
    rw [pyStripL, List.dropWhile_cons, hx]
    simp only [Bool.false_eq_true, if_false]
    have hne : (x :: xs).reverse ≠ [] := by
      rw [Ne, List.reverse_eq_nil_iff]
      exact List.cons_ne_nil x xs
    obtain ⟨d, ds, hds⟩ := List.exists_cons_of_ne_nil hne
    have hd : isPyWs d = false := by
      apply h2
      rw [← List.head?_reverse, hds, List.head?_cons]
    rw [hds, List.dropWhile_cons, hd]
    simp only [Bool.false_eq_true, if_false]
    rw [← hds, List.reverse_reverse]


theorem db_norm_fixes_normalized (l : List Char) :
    (replaceAll [' ', ' '] [' ']
      (replaceAll [' '] [' ']
        (replaceAll [' '] [' ']
          ((pyStripL (joinSp (pySplitWords l))).map pyLowerChar)))).map pyLowerChar =
    (pyStripL (joinSp (pySplitWords l))).map pyLowerChar := by
  have hwords : ∀ w ∈ pySplitWords l, w ≠ [] ∧ ∀ c ∈ w, isPyWs c = false :=
    pySplitAux_words l [] (by intro c hc; cases hc)
  have hstrip : pyStripL (joinSp (pySplitWords l)) = joinSp (pySplitWords l) :=
    pyStripL_id _ (joinSp_head _ hwords) (joinSp_last _ hwords)
  rw [hstrip]
  have hmem := joinSp_mem _ hwords
  have hA0 : (' ' : Char) ∉ (joinSp (pySplitWords l)).map pyLowerChar := by
    intro hm
    obtain ⟨c, hc, hfc⟩ := List.mem_map.mp hm
    have hc0 : c = ' ' :=
      (pyLowerChar_eq_iff_of_notLetter c ' ' (by decide) (by decide)).mp hfc
    subst hc0
    rcases hmem _ hc with h1 | h1
    · exact absurd h1 (by decide)
    · exact absurd h1 (by decide)
  have hF : (' ' : Char) ∉ (joinSp (pySplitWords l)).map pyLowerChar := by
    intro hm
    obtain ⟨c, hc, hfc⟩ := List.mem_map.mp hm
    have hc0 : c = ' ' :=
      (pyLowerChar_eq_iff_of_notLetter c ' ' (by decide) (by decide)).mp hfc
    subst hc0
    rcases hmem _ hc with h1 | h1
    · exact absurd h1 (by decide)
    · exact absurd h1 (by decide)
  have hCh : List.Chain' (fun a b => ¬(a = ' ' ∧ b = ' '))
      ((joinSp (pySplitWords l)).map pyLowerChar) := by
    rw [List.chain'_map]
    apply List.Chain'.imp ?_ (joinSp_chain _ hwords)
    intro a b hab hp
    exact hab ⟨(pyLowerChar_space_iff a).mp hp.1, (pyLowerChar_space_iff b).mp hp.2⟩
  simp only [replaceAll]
  rw [replaceAllFuel_single_id _ _ _ _ hA0]
  rw [replaceAllFuel_single_id _ _ _ _ hF]
  rw [replaceAllFuel_nosp_id _ _ _ hCh]
  exact map_pyLowerChar_idem _

/-- C5 (amended): the stored-side comparison-time normalization is not the
same function as the candidate-side `normalize_text`, but it is the identity
on every already-normalized title: for every string `s`,
`db_title_norm (normalize_text s) = normalize_text s`, so a stored title kept
in candidate-normal form is matched exactly. -/
theorem c5_storedside_fixes_normalized (s : String) :
    db_title_norm (normalize_text s) = normalize_text s := by
  rw [normalize_text]
  by_cases hs : s == ""
  · rw [if_pos hs]
    decide
  · rw [if_neg hs]
    dsimp only
    rw [db_title_norm]
    exact congrArg String.mk (db_norm_fixes_normalized _)

/-- Counterexample to C5 as stated: on the title `a<TAB>b` the candidate-side
normalization collapses the tab to a single space while the stored-side SQL
normalization leaves it unchanged, so the two normalizations differ and an
exact comparison of equal raw titles can miss. -/
theorem c5_counterexample :
    normalize_text "a\tb" ≠ db_title_norm "a\tb" := by decide
